import Mathlib

/-!
Shallow embedding of `bmp_generator.py`: the pattern row producer
(`_generate_pixel_rows`) and the bitmap encoder (`generate_bmp`).

Modelling conventions:
* Python ints are `Int` (colors may be out of the byte range, so channels are
  `Int`); pixel bytes are `Nat` in `[0,255]`.
* `struct.pack('BBB', ...)` raises `struct.error` when a value is outside
  `[0,255]`; it is modelled by `packBBB : Color → Option (List Nat)`.
* Python float arithmetic is modelled exactly where the code's results
  coincide with exact arithmetic:
  - `x // (width / 8)`: `width / 8` is exactly representable in binary
    floating point, and CPython's float floor division then returns the exact
    mathematical floor `(8 * x) / width`, so the bar index is `Nat` division;
  - `int(bar_index * (255 / 7))` for `bar_index ∈ [0,7]` equals the exact
    truncation `bar_index * 255 / 7` (the double rounding never crosses an
    integer boundary at these eight points);
  - gradient interpolation `int(s * (1 - t) + e * t)` is modelled over `ℚ`
    with `int` as truncation toward zero.
* A file write is modelled as the list of bytes the call appends; the
  `with open(...)` block flushes on every exit path, so bytes written before
  an exception are on disk when the exception propagates.
-/

namespace BmpGen

/-- An RGB color triple as passed around in the Python code.  Channels are
unconstrained Python ints; validity is a separate predicate. -/
structure Color where
  r : Int
  g : Int
  b : Int
deriving DecidableEq

/-- All three channels are in the byte range, i.e. `struct.pack('BBB', ...)`
accepts the color. -/
def colorOk (c : Color) : Prop :=
  0 ≤ c.r ∧ c.r ≤ 255 ∧ 0 ≤ c.g ∧ c.g ≤ 255 ∧ 0 ≤ c.b ∧ c.b ≤ 255

instance (c : Color) : Decidable (colorOk c) := by
  unfold colorOk; infer_instance

/-- The `pattern_options` dictionary: only the keys the generator reads. -/
structure Options where
  color : Option Color
  color1 : Option Color
  color2 : Option Color
  color3 : Option Color
  start_color : Option Color
  end_color : Option Color
deriving DecidableEq

/-- An empty options dictionary (`pattern_options=None` / `{}`). -/
def noOptions : Options := ⟨none, none, none, none, none, none⟩

/-- Module-level `PATTERNS` list. -/
def PATTERNS : List String :=
  ["Solid Color", "RGB Stripes", "Checkerboard", "Vertical Gradient",
   "Horizontal Gradient", "Color Bars", "Grayscale Bars"]

/-- `struct.pack('BBB', r, g, b)`: three bytes, or `struct.error` when a
channel is outside `[0, 255]`. -/
def packBBB (c : Color) : Option (List Nat) :=
  if colorOk c then some [c.r.toNat, c.g.toNat, c.b.toNat] else none

/-- Python `int()` applied to a (here: exact rational) number: truncation
toward zero. -/
def pyInt (q : ℚ) : Int :=
  if 0 ≤ q then ⌊q⌋ else ⌈q⌉

/-- One interpolated gradient color:
`tuple(int(s * (1 - ratio) + e * ratio) for s, e in zip(start, end))`. -/
def gradientColor (s e : Color) (t : ℚ) : Color :=
  ⟨pyInt ((s.r : ℚ) * (1 - t) + (e.r : ℚ) * t),
   pyInt ((s.g : ℚ) * (1 - t) + (e.g : ℚ) * t),
   pyInt ((s.b : ℚ) * (1 - t) + (e.b : ℚ) * t)⟩

/-- The fixed Color Bars palette `colors_rgb`. -/
def colorBarsPalette : List Color :=
  [⟨255, 255, 255⟩, ⟨255, 255, 0⟩, ⟨0, 255, 255⟩, ⟨0, 255, 0⟩,
   ⟨255, 0, 255⟩, ⟨255, 0, 0⟩, ⟨0, 0, 255⟩, ⟨0, 0, 0⟩]

/-- `min(int(x // bar_width), 7)` with `bar_width = width / 8`: the float
floor division is exact here (see the module comment), so this is `Nat`
division. -/
def barIndex (width x : Nat) : Nat :=
  min (x * 8 / width) 7

/-- `int(bar_index * (255 / 7))` for `bar_index ∈ [0,7]`; the IEEE double
computation agrees with exact truncation at all eight indices. -/
def grayLevel (k : Nat) : Nat :=
  k * 255 / 7

/-- `options.get('color', (0, 0, 0))` — the Solid Color branch. -/
def solidColor (options : Options) : Color :=
  options.color.getD ⟨0, 0, 0⟩

/-- The RGB Stripes branch: band boundaries `width // 3` and
`2 * (width // 3)`, colors defaulting to red, green, blue. -/
def stripeColor (width : Nat) (options : Options) (x : Nat) : Color :=
  let color1 := options.color1.getD ⟨255, 0, 0⟩
  let color2 := options.color2.getD ⟨0, 255, 0⟩
  let color3 := options.color3.getD ⟨0, 0, 255⟩
  if x < width / 3 then color1
  else if x < 2 * (width / 3) then color2
  else color3

/-- The Color Bars branch: `colors_rgb[min(int(x // bar_width), 7)]`. -/
def colorBarsColor (width x : Nat) : Color :=
  colorBarsPalette.getD (barIndex width x) ⟨0, 0, 0⟩

/-- The Grayscale Bars branch: `val = 255 - int(bar_index * (255 / 7))`,
same bar computation as Color Bars. -/
def grayBarsColor (width x : Nat) : Color :=
  let val : Int := 255 - (grayLevel (barIndex width x) : Int)
  ⟨val, val, val⟩

/-- The Horizontal Gradient branch: `ratio = x / (width - 1) if width > 1
else 1.0`, start defaulting to black and end to white. -/
def horizGradColor (width : Nat) (options : Options) (x : Nat) : Color :=
  let s := options.start_color.getD ⟨0, 0, 0⟩
  let e := options.end_color.getD ⟨255, 255, 255⟩
  gradientColor s e (if 1 < width then (x : ℚ) / ((width : ℚ) - 1) else 1)

/-- Color of column `x` for the vertically-constant patterns (the first
branch of `_generate_pixel_rows`); `none` for a pattern name none of the
`if` arms handles (the Python loop would hit an unbound `current_color`). -/
def constRowColor (width : Nat) (pattern : String) (options : Options)
    (x : Nat) : Option Color :=
  if pattern = "Solid Color" then some (solidColor options)
  else if pattern = "RGB Stripes" then some (stripeColor width options x)
  else if pattern = "Color Bars" then some (colorBarsColor width x)
  else if pattern = "Grayscale Bars" then some (grayBarsColor width x)
  else if pattern = "Horizontal Gradient" then some (horizGradColor width options x)
  else none

/-- Builds `row_data` for columns `x, x+1, …, x+n-1`, aborting at the first
column whose color `struct.pack` rejects. -/
def buildRowAux (f : Nat → Option Color) : Nat → Nat → Option (List Nat)
  | _, 0 => some []
  | x, n + 1 => do
    let c ← f x
    let p ← packBBB c
    let rest ← buildRowAux f (x + 1) n
    pure (p ++ rest)

/-- The full `row_data` loop `for x in range(width)`. -/
def buildRow (width : Nat) (f : Nat → Option Color) : Option (List Nat) :=
  buildRowAux f 0 width

/-- The Vertical Gradient row for scanline `y`:
`struct.pack('BBB', *current_color) * width` with
`ratio = y / (height - 1) if height > 1 else 1.0`. -/
def vertGradRow (width height : Nat) (options : Options) (y : Nat) :
    Option (List Nat) :=
  let s := options.start_color.getD ⟨0, 0, 0⟩
  let e := options.end_color.getD ⟨255, 255, 255⟩
  (packBBB (gradientColor s e
      (if 1 < height then (y : ℚ) / ((height : ℚ) - 1) else 1))).map
    (fun p => List.flatten (List.replicate width p))

/-- Pulls rows `y, y+1, …` (`n` of them) from a per-row producer; a failing
row stops the generator, keeping the rows already yielded and recording that
the generator raised. -/
def collectRows (f : Nat → Option (List Nat)) : Nat → Nat → List (List Nat) × Bool
  | _, 0 => ([], false)
  | y, n + 1 =>
    match f y with
    | none => ([], true)
    | some r =>
      let rest := collectRows f (y + 1) n
      (r :: rest.1, rest.2)

/-- `options.get('color1', (255, 255, 255))` in the Checkerboard branch. -/
def checkerColor1 (options : Options) : Color :=
  options.color1.getD ⟨255, 255, 255⟩

/-- `options.get('color2', (0, 0, 0))` in the Checkerboard branch. -/
def checkerColor2 (options : Options) : Color :=
  options.color2.getD ⟨0, 0, 0⟩

/-- `_generate_pixel_rows(width, height, pattern, options)`: the list of
rows the generator yields, paired with `true` when the generator raised
(a `struct.error` from an out-of-range color) instead of finishing.
`CHECKER_SIZE = 16`. -/
def generate_pixel_rows (width height : Nat) (pattern : String)
    (options : Options) : List (List Nat) × Bool :=
  if ¬(pattern = "Vertical Gradient" ∨ pattern = "Checkerboard") then
    match buildRow width (constRowColor width pattern options) with
    | none => ([], true)
    | some row => (List.replicate height row, false)
  else if pattern = "Vertical Gradient" then
    collectRows (vertGradRow width height options) 0 height
  else
    let c1 := checkerColor1 options
    let c2 := checkerColor2 options
    match buildRow width (fun x => some (if (x / 16) % 2 = 0 then c1 else c2)),
          buildRow width (fun x => some (if (x / 16) % 2 = 0 then c2 else c1)) with
    | some row1, some row2 =>
      ((List.range height).map (fun y => if (y / 16) % 2 = 0 then row1 else row2),
       false)
    | _, _ => ([], true)

/-- The BGR post-swap in `generate_bmp`: for each 3-byte pixel `r, g, b`
emit `b, g, r`.  Rows always have length a multiple of 3. -/
def bgrSwap : List Nat → List Nat
  | r :: g :: b :: rest => b :: g :: r :: bgrSwap rest
  | rest => rest

/-- `struct.pack('<H', n)`: two little-endian bytes. -/
def le16 (n : Nat) : List Nat :=
  [n % 256, n / 256 % 256]

/-- `struct.pack('<L', n)` (and `'<l'` for the nonnegative values used
here): four little-endian bytes. -/
def le32 (n : Nat) : List Nat :=
  [n % 256, n / 256 % 256, n / 2 ^ 16 % 256, n / 2 ^ 24 % 256]

/-- Python `str.upper()` as used on `pixel_order` (ASCII uppercasing; all
recognized orders are ASCII). -/
def pyUpper (s : String) : String :=
  ⟨s.data.map Char.toUpper⟩

/-- The error surface of `generate_bmp`: the three distinct `ValueError`s
raised by validation, the wrapped `IOError`, and the wrapped catch-all
`Exception` (which is what a `struct.error` from a bad color becomes). -/
inductive BmpError where
  | badDims
  | badOrder
  | badPattern
  | ioFailure
  | unexpected
deriving DecidableEq

/-- `True` for the `ValueError`s, `False` for the wrapped errors. -/
def BmpError.isValueError : BmpError → Bool
  | .badDims | .badOrder | .badPattern => true
  | .ioFailure | .unexpected => false

/-- `generate_bmp(filename, width, height, pattern, pixel_order,
pattern_options)`: returns the bytes written to the destination file and
the error the call raised, if any.  Validation errors are raised before the
file is opened, so they pair with an empty byte list.  The `2 ^ 32` guard
models `struct.pack('<L', file_size)` raising `struct.error` after the
2-byte signature was written; within that bound `width` and `height` also
fit `'<l'`. -/
def generate_bmp (width height : Int) (pattern : String)
    (pixel_order : String) (options : Options) : List Nat × Option BmpError :=
  if ¬(0 < width ∧ 0 < height) then ([], some .badDims)
  else
    let order := pyUpper pixel_order
    if ¬(order = "BGR" ∨ order = "RGB") then ([], some .badOrder)
    else if ¬(pattern ∈ PATTERNS) then ([], some .badPattern)
    else
      let w := width.toNat
      let h := height.toNat
      let row_size_unpadded := w * 3
      let padding := (4 - row_size_unpadded % 4) % 4
      let row_size_padded := row_size_unpadded + padding
      let image_data_size := row_size_padded * h
      let file_size := 14 + 40 + image_data_size
      if 2 ^ 32 ≤ file_size then ([66, 77], some .unexpected)
      else
        let header : List Nat :=
          [66, 77] ++ le32 file_size ++ le16 0 ++ le16 0 ++ le32 54 ++
          le32 40 ++ le32 w ++ le32 h ++ le16 1 ++ le16 24 ++ le32 0 ++
          le32 image_data_size ++ le32 0 ++ le32 0 ++ le32 0 ++ le32 0
        let rows := generate_pixel_rows w h pattern options
        let body :=
          (rows.1.map (fun row =>
            (if order = "BGR" then bgrSwap row else row) ++
              List.replicate padding 0)).flatten
        (header ++ body, if rows.2 then some .unexpected else none)

/-! ## Derived descriptions used in the statements -/

/-- The three bytes `struct.pack('BBB', ...)` produces for an in-range
color. -/
def pixelBytes (c : Color) : List Nat :=
  [c.r.toNat, c.g.toNat, c.b.toNat]

/-- The row a per-column color function yields for columns
`x, …, x + n - 1`. -/
def rowOfAux (g : Nat → Color) : Nat → Nat → List Nat
  | _, 0 => []
  | x, n + 1 => pixelBytes (g x) ++ rowOfAux g (x + 1) n

/-- The row a per-column color function yields for a full scanline. -/
def rowOf (width : Nat) (g : Nat → Color) : List Nat :=
  rowOfAux g 0 width

/-- The three bytes of pixel `x` inside a row. -/
def pixelAt (row : List Nat) (x : Nat) : List Nat :=
  (row.drop (3 * x)).take 3

/-- `padding` as computed by the encoder. -/
def rowPad (w : Nat) : Nat :=
  (4 - w * 3 % 4) % 4

/-- `row_size_padded` as computed by the encoder. -/
def rowPadded (w : Nat) : Nat :=
  w * 3 + rowPad w

/-- The 54 header bytes the encoder writes for dimensions `w × h`. -/
def bmpHeader (w h : Nat) : List Nat :=
  [66, 77] ++ le32 (14 + 40 + rowPadded w * h) ++ le16 0 ++ le16 0 ++
  le32 54 ++ le32 40 ++ le32 w ++ le32 h ++ le16 1 ++ le16 24 ++ le32 0 ++
  le32 (rowPadded w * h) ++ le32 0 ++ le32 0 ++ le32 0 ++ le32 0

/-- A `pattern_options` dict carrying exactly a `'color'` entry. -/
def solidOpts (c : Color) : Options :=
  ⟨some c, none, none, none, none, none⟩

/-- A dict entry is absent or holds an in-range color. -/
def optionOk : Option Color → Prop
  | none => True
  | some c => colorOk c

instance : DecidablePred optionOk := fun o =>
  match o with
  | none => isTrue trivial
  | some c => inferInstanceAs (Decidable (colorOk c))

/-- Every color in the options dict is in range. -/
def optionsOk (o : Options) : Prop :=
  optionOk o.color ∧ optionOk o.color1 ∧ optionOk o.color2 ∧
  optionOk o.color3 ∧ optionOk o.start_color ∧ optionOk o.end_color

instance (o : Options) : Decidable (optionsOk o) := by
  unfold optionsOk; infer_instance

/-- The gray level of the bar containing column `x`. -/
def grayValue (w x : Nat) : Nat :=
  255 - grayLevel (barIndex w x)

/-! ## Basic lemmas about rows -/

lemma optionOk_getD {o : Option Color} {d : Color} (ho : optionOk o)
    (hd : colorOk d) : colorOk (o.getD d) := by
  cases o with
  | none => exact hd
  | some c => exact ho

lemma packBBB_of_ok {c : Color} (h : colorOk c) :
    packBBB c = some (pixelBytes c) := by
  simp [packBBB, pixelBytes, h]

lemma rowOfAux_length (g : Nat → Color) :
    ∀ n x, (rowOfAux g x n).length = 3 * n := by
  intro n
  induction n with
  | zero => intro x; rfl
  | succ n ih =>
    intro x
    simp only [rowOfAux, pixelBytes, List.length_append, List.length_cons,
      List.length_nil, ih]
    omega

lemma rowOf_length (w : Nat) (g : Nat → Color) :
    (rowOf w g).length = 3 * w :=
  rowOfAux_length g w 0

lemma rowOfAux_drop (g : Nat → Color) :
    ∀ n x i, i < n →
      (rowOfAux g x n).drop (3 * i) =
        pixelBytes (g (x + i)) ++ rowOfAux g (x + i + 1) (n - i - 1) := by
  intro n
  induction n with
  | zero => intro x i hi; omega
  | succ n ih =>
    intro x i hi
    cases i with
    | zero => simp [rowOfAux]
    | succ i =>
      rw [show 3 * (i + 1) = 3 * i + 1 + 1 + 1 from by ring]
      show (pixelBytes (g x) ++ rowOfAux g (x + 1) n).drop (3 * i + 1 + 1 + 1) = _
      simp only [pixelBytes, List.cons_append, List.nil_append,
        List.drop_succ_cons]
      rw [ih (x + 1) i (by omega)]
      rw [show x + 1 + i = x + (i + 1) from by omega,
        show n - i - 1 = n + 1 - (i + 1) - 1 from by omega]
      rfl

lemma pixelAt_rowOf (g : Nat → Color) {w x : Nat} (hx : x < w) :
    pixelAt (rowOf w g) x = pixelBytes (g x) := by
  unfold pixelAt rowOf
  rw [rowOfAux_drop g w 0 x hx]
  rw [show (0 + x = x) from by omega]
  rw [show (3 : Nat) = (pixelBytes (g x)).length from by simp [pixelBytes]]
  exact List.take_left _ _

lemma buildRowAux_eq (f : Nat → Option Color) (g : Nat → Color) :
    ∀ n x, (∀ i, i < n → f (x + i) = some (g (x + i)) ∧ colorOk (g (x + i))) →
      buildRowAux f x n = some (rowOfAux g x n) := by
  intro n
  induction n with
  | zero => intro x _; rfl
  | succ n ih =>
    intro x h
    have h0 := h 0 (by omega)
    rw [show (x + 0 = x) from by omega] at h0
    have hr := ih (x + 1) (fun i hi => by
      have := h (i + 1) (by omega)
      rwa [show (x + (i + 1) = x + 1 + i) from by omega] at this)
    simp only [buildRowAux, h0.1, packBBB_of_ok h0.2, hr, Option.bind_eq_bind,
      Option.some_bind]
    rfl

lemma buildRow_eq {w : Nat} {f : Nat → Option Color} {g : Nat → Color}
    (h : ∀ x, x < w → f x = some (g x) ∧ colorOk (g x)) :
    buildRow w f = some (rowOf w g) :=
  buildRowAux_eq f g w 0 (fun i hi => by simpa using h i hi)

/-- The first branch of `_generate_pixel_rows`, summarized: a
vertically-constant pattern with per-column colors `g` (all packable)
yields `height` copies of the row of `g`. -/
lemma generate_pixel_rows_constant {w : Nat} (h : Nat) {pattern : String}
    {options : Options} {g : Nat → Color}
    (hvc : ¬(pattern = "Vertical Gradient" ∨ pattern = "Checkerboard"))
    (hg : ∀ x, x < w →
      constRowColor w pattern options x = some (g x) ∧ colorOk (g x)) :
    generate_pixel_rows w h pattern options =
      (List.replicate h (rowOf w g), false) := by
  unfold generate_pixel_rows
  rw [if_pos hvc, buildRow_eq hg]

lemma bgrSwap_cons (a b c : Nat) (l : List Nat) :
    bgrSwap (a :: b :: c :: l) = c :: b :: a :: bgrSwap l := rfl

lemma bgrSwap_pixel (c : Color) (l : List Nat) :
    bgrSwap (pixelBytes c ++ l) =
      [c.b.toNat, c.g.toNat, c.r.toNat] ++ bgrSwap l := rfl

lemma bgrSwap_length : ∀ l : List Nat, (bgrSwap l).length = l.length
  | [] => rfl
  | [_] => rfl
  | [_, _] => rfl
  | _ :: _ :: _ :: rest => by
    rw [bgrSwap_cons]
    simp [bgrSwap_length rest]

lemma collectRows_eq (f : Nat → Option (List Nat)) (g : Nat → List Nat) :
    ∀ n x, (∀ i, i < n → f (x + i) = some (g (x + i))) →
      collectRows f x n = ((List.range n).map (fun i => g (x + i)), false) := by
  intro n
  induction n with
  | zero => intro x _; rfl
  | succ n ih =>
    intro x h
    have h0 := h 0 (by omega)
    rw [show (x + 0 = x) from by omega] at h0
    have hr := ih (x + 1) (fun i hi => by
      have := h (i + 1) (by omega)
      rwa [show (x + (i + 1) = x + 1 + i) from by omega] at this)
    simp only [collectRows, h0, hr, List.range_succ_eq_map, List.map_cons,
      List.map_map]
    have hfun : ((fun i => g (x + i)) ∘ Nat.succ) = fun i => g (x + 1 + i) := by
      funext i
      simp only [Function.comp_apply]
      congr 1
      omega
    rw [hfun]
    simp

/-! ## Per-pattern lemmas -/

lemma pyInt_intCast (n : Int) : pyInt (n : ℚ) = n := by
  unfold pyInt
  split <;> simp

lemma gradientColor_end (s e : Color) : gradientColor s e 1 = e := by
  unfold gradientColor
  simp only [sub_self, mul_zero, mul_one, zero_add, pyInt_intCast]

lemma pyInt_conv_bounds {a b : Int} (ha0 : 0 ≤ a) (ha : a ≤ 255)
    (hb0 : 0 ≤ b) (hb : b ≤ 255) {t : ℚ} (h0 : 0 ≤ t) (h1 : t ≤ 1) :
    0 ≤ pyInt ((a : ℚ) * (1 - t) + (b : ℚ) * t) ∧
      pyInt ((a : ℚ) * (1 - t) + (b : ℚ) * t) ≤ 255 := by
  have ha0' : (0 : ℚ) ≤ (a : ℚ) := by exact_mod_cast ha0
  have ha' : (a : ℚ) ≤ 255 := by exact_mod_cast ha
  have hb0' : (0 : ℚ) ≤ (b : ℚ) := by exact_mod_cast hb0
  have hb' : (b : ℚ) ≤ 255 := by exact_mod_cast hb
  have ht' : (0 : ℚ) ≤ 1 - t := by linarith
  have hq0 : (0 : ℚ) ≤ (a : ℚ) * (1 - t) + (b : ℚ) * t :=
    add_nonneg (mul_nonneg ha0' ht') (mul_nonneg hb0' h0)
  have hq255 : (a : ℚ) * (1 - t) + (b : ℚ) * t ≤ 255 := by
    have l1 : (a : ℚ) * (1 - t) ≤ 255 * (1 - t) :=
      mul_le_mul_of_nonneg_right ha' ht'
    have l2 : (b : ℚ) * t ≤ 255 * t := mul_le_mul_of_nonneg_right hb' h0
    linarith
  unfold pyInt
  rw [if_pos hq0]
  refine ⟨Int.le_floor.mpr (by exact_mod_cast hq0), ?_⟩
  have := Int.floor_le_floor hq255
  simpa using this

lemma gradientColor_ok {s e : Color} (hs : colorOk s) (he : colorOk e)
    {t : ℚ} (h0 : 0 ≤ t) (h1 : t ≤ 1) : colorOk (gradientColor s e t) := by
  obtain ⟨hsr0, hsr, hsg0, hsg, hsb0, hsb⟩ := hs
  obtain ⟨her0, her, heg0, heg, heb0, heb⟩ := he
  exact ⟨(pyInt_conv_bounds hsr0 hsr her0 her h0 h1).1,
    (pyInt_conv_bounds hsr0 hsr her0 her h0 h1).2,
    (pyInt_conv_bounds hsg0 hsg heg0 heg h0 h1).1,
    (pyInt_conv_bounds hsg0 hsg heg0 heg h0 h1).2,
    (pyInt_conv_bounds hsb0 hsb heb0 heb h0 h1).1,
    (pyInt_conv_bounds hsb0 hsb heb0 heb h0 h1).2⟩

/-- The interpolation parameter is in `[0, 1]` for every scanline. -/
lemma t_bounds {n y : Nat} (hy : y < n) (hn : 1 < n) :
    0 ≤ (y : ℚ) / ((n : ℚ) - 1) ∧ (y : ℚ) / ((n : ℚ) - 1) ≤ 1 := by
  have hpos : (0 : ℚ) < (n : ℚ) - 1 := by
    have : (1 : ℚ) < (n : ℚ) := by exact_mod_cast hn
    linarith
  refine ⟨div_nonneg (by positivity) hpos.le, ?_⟩
  rw [div_le_one hpos]
  have : ((y : ℚ) + 1) ≤ (n : ℚ) := by exact_mod_cast Nat.succ_le_of_lt hy
  linarith

/-- The ratio actually used at scanline `y` (both branches). -/
lemma tVal_bounds {n y : Nat} (hy : y < n) :
    0 ≤ (if 1 < n then (y : ℚ) / ((n : ℚ) - 1) else 1) ∧
      (if 1 < n then (y : ℚ) / ((n : ℚ) - 1) else 1) ≤ 1 := by
  split
  · exact t_bounds hy (by assumption)
  · exact ⟨zero_le_one, le_refl 1⟩

lemma stripeColor_ok {w : Nat} {options : Options} (h1 : optionOk options.color1)
    (h2 : optionOk options.color2) (h3 : optionOk options.color3) (x : Nat) :
    colorOk (stripeColor w options x) := by
  unfold stripeColor
  split
  · exact optionOk_getD h1 (by decide)
  · split
    · exact optionOk_getD h2 (by decide)
    · exact optionOk_getD h3 (by decide)

lemma barIndex_le (w x : Nat) : barIndex w x ≤ 7 :=
  min_le_right _ _

lemma colorBarsColor_ok (w x : Nat) : colorOk (colorBarsColor w x) := by
  unfold colorBarsColor
  have h7 : barIndex w x ≤ 7 := barIndex_le w x
  set k := barIndex w x with hk
  interval_cases k <;> decide

lemma grayLevel_le (k : Nat) (hk : k ≤ 7) : grayLevel k ≤ 255 := by
  unfold grayLevel
  omega

lemma grayBarsColor_ok (w x : Nat) : colorOk (grayBarsColor w x) := by
  have := grayLevel_le (barIndex w x) (barIndex_le w x)
  unfold grayBarsColor colorOk
  dsimp only
  omega

lemma grayBars_pixelBytes (w x : Nat) :
    pixelBytes (grayBarsColor w x) =
      [grayValue w x, grayValue w x, grayValue w x] := by
  have := grayLevel_le (barIndex w x) (barIndex_le w x)
  simp only [pixelBytes, grayBarsColor, grayValue, List.cons.injEq, and_true]
  omega

/-! ## Row-level lemmas per pattern -/

lemma solid_rows (w h : Nat) (options : Options)
    (hok : optionOk options.color) :
    generate_pixel_rows w h "Solid Color" options =
      (List.replicate h (rowOf w (fun _ => solidColor options)), false) := by
  refine generate_pixel_rows_constant h (by decide) (fun x _ => ⟨?_, ?_⟩)
  · simp [constRowColor]
  · exact optionOk_getD hok (by decide)

lemma stripes_rows (w h : Nat) (options : Options)
    (h1 : optionOk options.color1) (h2 : optionOk options.color2)
    (h3 : optionOk options.color3) :
    generate_pixel_rows w h "RGB Stripes" options =
      (List.replicate h (rowOf w (stripeColor w options)), false) := by
  refine generate_pixel_rows_constant h (by decide) (fun x _ => ⟨?_, ?_⟩)
  · simp [constRowColor]
  · exact stripeColor_ok h1 h2 h3 x

lemma colorBars_rows (w h : Nat) (options : Options) :
    generate_pixel_rows w h "Color Bars" options =
      (List.replicate h (rowOf w (colorBarsColor w)), false) := by
  refine generate_pixel_rows_constant h (by decide) (fun x _ => ⟨?_, ?_⟩)
  · simp [constRowColor]
  · exact colorBarsColor_ok w x

lemma grayBars_rows (w h : Nat) (options : Options) :
    generate_pixel_rows w h "Grayscale Bars" options =
      (List.replicate h (rowOf w (grayBarsColor w)), false) := by
  refine generate_pixel_rows_constant h (by decide) (fun x _ => ⟨?_, ?_⟩)
  · simp [constRowColor]
  · exact grayBarsColor_ok w x

lemma horizgrad_rows (w h : Nat) (options : Options)
    (hs : colorOk (options.start_color.getD ⟨0, 0, 0⟩))
    (he : colorOk (options.end_color.getD ⟨255, 255, 255⟩)) :
    generate_pixel_rows w h "Horizontal Gradient" options =
      (List.replicate h (rowOf w (horizGradColor w options)), false) := by
  refine generate_pixel_rows_constant h (by decide) (fun x hx => ⟨?_, ?_⟩)
  · simp [constRowColor]
  · exact gradientColor_ok hs he (tVal_bounds hx).1 (tVal_bounds hx).2

lemma vertgrad_rows (w h : Nat) (options : Options)
    (hs : colorOk (options.start_color.getD ⟨0, 0, 0⟩))
    (he : colorOk (options.end_color.getD ⟨255, 255, 255⟩)) :
    generate_pixel_rows w h "Vertical Gradient" options =
      ((List.range h).map (fun (y : Nat) =>
        List.flatten (List.replicate w (pixelBytes (gradientColor
          (options.start_color.getD ⟨0, 0, 0⟩)
          (options.end_color.getD ⟨255, 255, 255⟩)
          (if 1 < h then (y : ℚ) / ((h : ℚ) - 1) else 1))))), false) := by
  unfold generate_pixel_rows
  rw [if_neg (by decide), if_pos (by decide)]
  rw [collectRows_eq (vertGradRow w h options)
    (fun (y : Nat) => List.flatten (List.replicate w (pixelBytes (gradientColor
      (options.start_color.getD ⟨0, 0, 0⟩) (options.end_color.getD ⟨255, 255, 255⟩)
      (if 1 < h then (y : ℚ) / ((h : ℚ) - 1) else 1))))) h 0
    (fun i hi => by
      have hb := tVal_bounds (n := h) (y := 0 + i) (by omega)
      unfold vertGradRow
      dsimp only
      rw [packBBB_of_ok (gradientColor_ok hs he hb.1 hb.2)]
      rfl)]
  simp only [Nat.zero_add]

lemma checker_rows (w h : Nat) (options : Options)
    (h1 : optionOk options.color1) (h2 : optionOk options.color2) :
    generate_pixel_rows w h "Checkerboard" options =
      ((List.range h).map (fun y => if y / 16 % 2 = 0
        then rowOf w (fun x => if x / 16 % 2 = 0
          then checkerColor1 options else checkerColor2 options)
        else rowOf w (fun x => if x / 16 % 2 = 0
          then checkerColor2 options else checkerColor1 options)), false) := by
  have hc1 : colorOk (checkerColor1 options) := optionOk_getD h1 (by decide)
  have hc2 : colorOk (checkerColor2 options) := optionOk_getD h2 (by decide)
  unfold generate_pixel_rows
  rw [if_neg (by decide), if_neg (by decide)]
  dsimp only
  rw [buildRow_eq
      (f := fun x => some (if x / 16 % 2 = 0
        then checkerColor1 options else checkerColor2 options))
      (g := fun x => if x / 16 % 2 = 0
        then checkerColor1 options else checkerColor2 options)
      (fun x _ => ⟨rfl, by dsimp only; split <;> assumption⟩),
    buildRow_eq
      (f := fun x => some (if x / 16 % 2 = 0
        then checkerColor2 options else checkerColor1 options))
      (g := fun x => if x / 16 % 2 = 0
        then checkerColor2 options else checkerColor1 options)
      (fun x _ => ⟨rfl, by dsimp only; split <;> assumption⟩)]

/-! ## Encoder-level lemmas -/

lemma length_of_mem_replicate_rowOf {w h : Nat} {g : Nat → Color}
    {row : List Nat} (hrow : row ∈ List.replicate h (rowOf w g)) :
    row.length = 3 * w := by
  rw [List.eq_of_mem_replicate hrow, rowOf_length]

lemma bmpHeader_length (w h : Nat) : (bmpHeader w h).length = 54 := by
  simp [bmpHeader, le16, le32]

/-- Every validation passes and the packed sizes fit: `generate_bmp` writes
the 54 header bytes and then each produced row, channel-swapped when the
normalized order is BGR, padded with `rowPad w` zero bytes. -/
lemma generate_bmp_valid (w h : Nat) (pattern ord : String) (options : Options)
    (hw : 0 < w) (hh : 0 < h)
    (ho : pyUpper ord = "BGR" ∨ pyUpper ord = "RGB")
    (hp : pattern ∈ PATTERNS)
    (hsize : 14 + 40 + rowPadded w * h < 2 ^ 32) :
    generate_bmp w h pattern ord options =
      (bmpHeader w h ++
        ((generate_pixel_rows w h pattern options).1.map (fun row =>
          (if pyUpper ord = "BGR" then bgrSwap row else row) ++
            List.replicate (rowPad w) 0)).flatten,
       if (generate_pixel_rows w h pattern options).2 then some .unexpected
       else none) := by
  have hdim : (0 : Int) < (w : Int) ∧ (0 : Int) < (h : Int) :=
    ⟨by exact_mod_cast hw, by exact_mod_cast hh⟩
  unfold generate_bmp
  rw [if_neg (not_not_intro hdim)]
  dsimp only
  rw [if_neg (not_not_intro ho), if_neg (not_not_intro hp)]
  simp only [Int.toNat_natCast]
  rw [if_neg (by unfold rowPadded rowPad at hsize; omega)]
  rfl

/-- For every valid pattern with in-range colors the producer finishes,
yields `height` rows, and each row is `3 * width` bytes. -/
lemma rows_ok (w h : Nat) (pattern : String) (options : Options)
    (hp : pattern ∈ PATTERNS) (hok : optionsOk options) :
    (generate_pixel_rows w h pattern options).2 = false ∧
    (generate_pixel_rows w h pattern options).1.length = h ∧
    ∀ row ∈ (generate_pixel_rows w h pattern options).1, row.length = 3 * w := by
  obtain ⟨hc, hc1, hc2, hc3, hsc, hec⟩ := hok
  simp only [PATTERNS, List.mem_cons, List.not_mem_nil, or_false] at hp
  rcases hp with rfl | rfl | rfl | rfl | rfl | rfl | rfl
  · rw [solid_rows w h options hc]
    refine ⟨rfl, by simp, fun row hrow => ?_⟩
    exact length_of_mem_replicate_rowOf (by simpa using hrow)
  · rw [stripes_rows w h options hc1 hc2 hc3]
    refine ⟨rfl, by simp, fun row hrow => ?_⟩
    exact length_of_mem_replicate_rowOf (by simpa using hrow)
  · rw [checker_rows w h options hc1 hc2]
    refine ⟨rfl, by simp, fun row hrow => ?_⟩
    simp only [List.mem_map] at hrow
    obtain ⟨y, _, rfl⟩ := hrow
    by_cases hy2 : y / 16 % 2 = 0 <;> simp [hy2, rowOf_length]
  · rw [vertgrad_rows w h options (optionOk_getD hsc (by decide))
      (optionOk_getD hec (by decide))]
    refine ⟨rfl, by simp, fun row hrow => ?_⟩
    simp only [List.mem_map] at hrow
    obtain ⟨y, _, rfl⟩ := hrow
    simp only [List.length_flatten, List.map_replicate, List.sum_replicate,
      smul_eq_mul, pixelBytes, List.length_cons, List.length_nil]
    omega
  · rw [horizgrad_rows w h options (optionOk_getD hsc (by decide))
      (optionOk_getD hec (by decide))]
    refine ⟨rfl, by simp, fun row hrow => ?_⟩
    exact length_of_mem_replicate_rowOf (by simpa using hrow)
  · rw [colorBars_rows w h options]
    refine ⟨rfl, by simp, fun row hrow => ?_⟩
    exact length_of_mem_replicate_rowOf (by simpa using hrow)
  · rw [grayBars_rows w h options]
    refine ⟨rfl, by simp, fun row hrow => ?_⟩
    exact length_of_mem_replicate_rowOf (by simpa using hrow)

/-- Total body size: `height` processed rows of `rowPadded w` bytes each. -/
lemma body_length (w : Nat) (ord : String) (rows : List (List Nat))
    (hlen : ∀ row ∈ rows, row.length = 3 * w) :
    ((rows.map (fun row =>
      (if pyUpper ord = "BGR" then bgrSwap row else row) ++
        List.replicate (rowPad w) 0)).flatten).length =
      rows.length * rowPadded w := by
  induction rows with
  | nil => simp
  | cons r rs ih =>
    have hr := hlen r (by simp)
    have hrs := ih (fun row hrow => hlen row (by simp [hrow]))
    simp only [List.map_cons, List.flatten_cons, List.length_append,
      List.length_cons, hrs, List.length_replicate]
    have hswap : ((if pyUpper ord = "BGR" then bgrSwap r else r)).length = 3 * w := by
      split
      · rw [bgrSwap_length, hr]
      · exact hr
    rw [hswap]
    unfold rowPadded
    ring

/-! ## Claim C1 -/

/-- C1 (counterexample): with no color parameter supplied, the Solid Color
producer emits the default color black `(0,0,0)`, not white `(255,255,255)`:
at width = height = 1 the single produced row is `[0,0,0]`. -/
theorem C1_counterexample :
    generate_pixel_rows 1 1 "Solid Color" noOptions = ([[0, 0, 0]], false) ∧
    [[0, 0, 0]] ≠ [[255, 255, 255]] := by
  exact ⟨rfl, by decide⟩

/-- C1 (amended): for the SolidColor pattern with no color parameter
supplied, every pixel of every produced row equals the default color black
`(0,0,0)`, for every width ≥ 1 and height ≥ 1. -/
theorem C1_solid_default_black (w h : Nat) (options : Options)
    (_hw : 0 < w) (_hh : 0 < h) (hnone : options.color = none) :
    generate_pixel_rows w h "Solid Color" options =
      (List.replicate h (rowOf w (fun _ => ⟨0, 0, 0⟩)), false) ∧
    ∀ x, x < w →
      pixelAt (rowOf w (fun _ => (⟨0, 0, 0⟩ : Color))) x = [0, 0, 0] := by
  have hsolid : solidColor options = ⟨0, 0, 0⟩ := by
    unfold solidColor
    rw [hnone]
    rfl
  constructor
  · have hok : optionOk options.color := by
      rw [hnone]
      trivial
    have := solid_rows w h options hok
    rwa [hsolid] at this
  · intro x hx
    rw [pixelAt_rowOf _ hx]
    rfl

/-- C1 witness: the amended claim at width 2, height 1. -/
theorem C1_solid_default_black_witness :
    generate_pixel_rows 2 1 "Solid Color" noOptions =
      (List.replicate 1 (rowOf 2 (fun _ => ⟨0, 0, 0⟩)), false) ∧
    ∀ x, x < 2 →
      pixelAt (rowOf 2 (fun _ => (⟨0, 0, 0⟩ : Color))) x = [0, 0, 0] :=
  C1_solid_default_black 2 1 noOptions (by decide) (by decide) rfl

/-! ## Claim C2 -/

/-- C2 (counterexample): the encoder called on Solid Color with supplied
color `(300,0,0)` — a channel outside `[0,255]` — does not fail with a
`ValueError` before I/O: the 54 header bytes are written to the destination
and the failure is the wrapped catch-all error. -/
theorem C2_counterexample :
    (generate_bmp 1 1 "Solid Color" "BGR" (solidOpts ⟨300, 0, 0⟩)).2 =
        some BmpError.unexpected ∧
    BmpError.unexpected.isValueError = false ∧
    (generate_bmp 1 1 "Solid Color" "BGR" (solidOpts ⟨300, 0, 0⟩)).1.length
        = 54 := by
  refine ⟨?_, rfl, ?_⟩ <;> rfl

/-- C2 (amended): when a supplied Solid Color color has a channel outside
`[0,255]` and all other arguments are valid, `generate_bmp` fails with the
wrapped catch-all error (not a `ValueError`) after the 54 header bytes have
been written. -/
theorem C2_bad_color_fails_after_header (w h : Nat) (ord : String) (c : Color)
    (hw : 0 < w) (hh : 0 < h)
    (ho : pyUpper ord = "BGR" ∨ pyUpper ord = "RGB")
    (hbad : ¬colorOk c)
    (hsize : 14 + 40 + rowPadded w * h < 2 ^ 32) :
    generate_bmp w h "Solid Color" ord (solidOpts c) =
      (bmpHeader w h, some BmpError.unexpected) ∧
    (bmpHeader w h).length = 54 ∧
    BmpError.unexpected.isValueError = false := by
  have hrows : generate_pixel_rows w h "Solid Color" (solidOpts c) =
      ([], true) := by
    unfold generate_pixel_rows
    rw [if_pos (by decide)]
    have hbr : buildRow w (constRowColor w "Solid Color" (solidOpts c)) =
        none := by
      unfold buildRow
      cases w with
      | zero => omega
      | succ n =>
        have hf : constRowColor (n + 1) "Solid Color" (solidOpts c) 0 =
            some c := by
          simp [constRowColor, solidColor, solidOpts]
        simp [buildRowAux, hf, packBBB, hbad]
    rw [hbr]
  refine ⟨?_, bmpHeader_length w h, rfl⟩
  rw [generate_bmp_valid w h "Solid Color" ord (solidOpts c) hw hh ho
    (by decide) hsize, hrows]
  simp

/-- C2 witness: the amended claim at 1×1, order BGR, color `(300,0,0)`. -/
theorem C2_bad_color_fails_after_header_witness :
    generate_bmp 1 1 "Solid Color" "BGR" (solidOpts ⟨300, 0, 0⟩) =
      (bmpHeader 1 1, some BmpError.unexpected) ∧
    (bmpHeader 1 1).length = 54 ∧
    BmpError.unexpected.isValueError = false :=
  C2_bad_color_fails_after_header 1 1 "BGR" ⟨300, 0, 0⟩ (by decide) (by decide)
    (Or.inl rfl) (by decide) (by decide)

/-! ## Claim C3 -/

/-- C3: when width or height is not positive, or the upper-cased channel
order is not BGR/RGB, or the pattern name is unrecognized, `generate_bmp`
raises one of its `ValueError`s and writes no bytes: the destination is
never opened, hence neither created nor modified. -/
theorem C3_validation_before_io (w h : Int) (pattern ord : String)
    (options : Options)
    (hbad : ¬(0 < w ∧ 0 < h) ∨ ¬(pyUpper ord = "BGR" ∨ pyUpper ord = "RGB") ∨
      pattern ∉ PATTERNS) :
    ∃ e, generate_bmp w h pattern ord options = ([], some e) ∧
      e.isValueError = true := by
  by_cases hd : 0 < w ∧ 0 < h
  · by_cases horder : pyUpper ord = "BGR" ∨ pyUpper ord = "RGB"
    · have hpat : pattern ∉ PATTERNS := by tauto
      refine ⟨BmpError.badPattern, ?_, rfl⟩
      unfold generate_bmp
      rw [if_neg (not_not_intro hd)]
      dsimp only
      rw [if_neg (not_not_intro horder), if_pos hpat]
    · refine ⟨BmpError.badOrder, ?_, rfl⟩
      unfold generate_bmp
      rw [if_neg (not_not_intro hd)]
      dsimp only
      rw [if_pos horder]
  · exact ⟨BmpError.badDims, by unfold generate_bmp; rw [if_pos hd], rfl⟩

/-- C3 witness: width 0, height −5, unknown pattern, order XYZ. -/
theorem C3_validation_before_io_witness :
    ∃ e, generate_bmp 0 (-5) "Plaid" "XYZ" noOptions = ([], some e) ∧
      e.isValueError = true :=
  C3_validation_before_io 0 (-5) "Plaid" "XYZ" noOptions (Or.inl (by decide))

/-! ## Claim C10 -/

/-- C10: `generate_bmp` upper-cases `pixel_order` before validating it.
With valid dimensions, the call fails with the pixel-order `ValueError` iff
the upper-cased string is not BGR/RGB, and any casing whose upper-case is
BGR (resp. RGB) produces output byte-identical to the uppercase form; in
particular `"bgr"` and `"Rgb"` normalize to `"BGR"` and `"RGB"`. -/
theorem C10_pixel_order_normalization (w h : Int) (pattern : String)
    (options : Options) (hw : 0 < w) (hh : 0 < h) :
    (∀ ord, (generate_bmp w h pattern ord options).2 =
        some BmpError.badOrder ↔
      ¬(pyUpper ord = "BGR" ∨ pyUpper ord = "RGB")) ∧
    (∀ ord, pyUpper ord = "BGR" →
      generate_bmp w h pattern ord options =
        generate_bmp w h pattern "BGR" options) ∧
    (∀ ord, pyUpper ord = "RGB" →
      generate_bmp w h pattern ord options =
        generate_bmp w h pattern "RGB" options) ∧
    pyUpper "bgr" = "BGR" ∧ pyUpper "Rgb" = "RGB" := by
  have key : ∀ ord, ¬(pyUpper ord = "BGR" ∨ pyUpper ord = "RGB") →
      generate_bmp w h pattern ord options = ([], some BmpError.badOrder) := by
    intro ord horder
    unfold generate_bmp
    rw [if_neg (not_not_intro ⟨hw, hh⟩)]
    dsimp only
    rw [if_pos horder]
  have key2 : ∀ ord, (pyUpper ord = "BGR" ∨ pyUpper ord = "RGB") →
      (generate_bmp w h pattern ord options).2 ≠ some BmpError.badOrder := by
    intro ord horder
    unfold generate_bmp
    rw [if_neg (not_not_intro ⟨hw, hh⟩)]
    dsimp only
    rw [if_neg (not_not_intro horder)]
    by_cases hpat : pattern ∈ PATTERNS
    · rw [if_neg (not_not_intro hpat)]
      split
      · simp
      · split <;> simp
    · rw [if_pos hpat]
      simp
  refine ⟨fun ord => ⟨fun heq => ?_, fun horder => by rw [key ord horder]⟩,
    fun ord hbgr => ?_, fun ord hrgb => ?_, rfl, rfl⟩
  · by_contra hvalid
    exact key2 ord hvalid heq
  · unfold generate_bmp
    dsimp only
    rw [hbgr, show pyUpper "BGR" = "BGR" from rfl]
  · unfold generate_bmp
    dsimp only
    rw [hrgb, show pyUpper "RGB" = "RGB" from rfl]

/-- C10 witness: the normalization claim at 1×1, Solid Color, no options. -/
theorem C10_pixel_order_normalization_witness :
    (∀ ord, (generate_bmp 1 1 "Solid Color" ord noOptions).2 =
        some BmpError.badOrder ↔
      ¬(pyUpper ord = "BGR" ∨ pyUpper ord = "RGB")) ∧
    (∀ ord, pyUpper ord = "BGR" →
      generate_bmp 1 1 "Solid Color" ord noOptions =
        generate_bmp 1 1 "Solid Color" "BGR" noOptions) ∧
    (∀ ord, pyUpper ord = "RGB" →
      generate_bmp 1 1 "Solid Color" ord noOptions =
        generate_bmp 1 1 "Solid Color" "RGB" noOptions) ∧
    pyUpper "bgr" = "BGR" ∧ pyUpper "Rgb" = "RGB" :=
  C10_pixel_order_normalization 1 1 "Solid Color" noOptions (by decide)
    (by decide)

/-! ## Claim C4 -/

/-- C4: for every valid width ≥ 1, height ≥ 1 (file size fitting the
`uint32` field), recognized pattern and in-range colors, the output starts
with the exact 54 little-endian header bytes (`BM`, fileSize, reserved,
offset 54, headerSize 40, width, height, planes 1, bpp 24, compression 0,
image size, zero resolutions and palette counts), each stored row length
`rowPadded w` is divisible by 4, and the declared file size field equals
`54 + height * rowPadded w`, which is the total number of bytes written. -/
theorem C4_header_layout (w h : Nat) (pattern ord : String)
    (options : Options) (hw : 0 < w) (hh : 0 < h)
    (ho : pyUpper ord = "BGR" ∨ pyUpper ord = "RGB")
    (hp : pattern ∈ PATTERNS) (hok : optionsOk options)
    (hsize : 14 + 40 + rowPadded w * h < 2 ^ 32) :
    (generate_bmp w h pattern ord options).2 = none ∧
    (generate_bmp w h pattern ord options).1.take 54 = bmpHeader w h ∧
    ((generate_bmp w h pattern ord options).1.drop 2).take 4 =
      le32 (54 + h * rowPadded w) ∧
    (generate_bmp w h pattern ord options).1.length = 54 + h * rowPadded w ∧
    rowPadded w % 4 = 0 := by
  obtain ⟨herr, hlen, hrows⟩ := rows_ok w h pattern options hp hok
  rw [generate_bmp_valid w h pattern ord options hw hh ho hp hsize, herr]
  refine ⟨by simp, ?_, ?_, ?_, ?_⟩
  · rw [show (54 : Nat) = (bmpHeader w h).length from (bmpHeader_length w h).symm]
    exact List.take_left _ _
  · rw [show 54 + h * rowPadded w = 14 + 40 + rowPadded w * h from by ring]
    simp [bmpHeader, le16, le32]
  · rw [List.length_append, bmpHeader_length,
      body_length w ord (generate_pixel_rows w h pattern options).1 hrows, hlen]
  · unfold rowPadded rowPad
    omega

/-- C4 witness: the header claim at 1×1, Solid Color, order BGR. -/
theorem C4_header_layout_witness :
    (generate_bmp 1 1 "Solid Color" "BGR" noOptions).2 = none ∧
    (generate_bmp 1 1 "Solid Color" "BGR" noOptions).1.take 54 =
      bmpHeader 1 1 ∧
    ((generate_bmp 1 1 "Solid Color" "BGR" noOptions).1.drop 2).take 4 =
      le32 (54 + 1 * rowPadded 1) ∧
    (generate_bmp 1 1 "Solid Color" "BGR" noOptions).1.length =
      54 + 1 * rowPadded 1 ∧
    rowPadded 1 % 4 = 0 :=
  C4_header_layout 1 1 "Solid Color" "BGR" noOptions (by decide) (by decide)
    (Or.inl rfl) (by decide) (by decide) (by decide)

/-! ## Claim C5 -/

/-- C5: the row producer yields canonical RGB rows; with normalized order
BGR the encoder swaps each pixel's first and third bytes before writing and
appends the padding zeros, while with order RGB the row bytes are written
literally plus padding; concretely, Solid Color (10,20,30) at 2×1 with
order BGR stores pixel data `[30,20,10, 30,20,10]` followed by two zero
padding bytes. -/
theorem C5_channel_swap (w h : Nat) (pattern ord : String)
    (options : Options) (hw : 0 < w) (hh : 0 < h)
    (hp : pattern ∈ PATTERNS) (_hok : optionsOk options)
    (hsize : 14 + 40 + rowPadded w * h < 2 ^ 32) :
    (pyUpper ord = "BGR" →
      (generate_bmp w h pattern ord options).1.drop 54 =
        ((generate_pixel_rows w h pattern options).1.map (fun row =>
          bgrSwap row ++ List.replicate (rowPad w) 0)).flatten) ∧
    (pyUpper ord = "RGB" →
      (generate_bmp w h pattern ord options).1.drop 54 =
        ((generate_pixel_rows w h pattern options).1.map (fun row =>
          row ++ List.replicate (rowPad w) 0)).flatten) ∧
    (∀ c rest, bgrSwap (pixelBytes c ++ rest) =
      [c.b.toNat, c.g.toNat, c.r.toNat] ++ bgrSwap rest) ∧
    (generate_pixel_rows 2 1 "Solid Color" (solidOpts ⟨10, 20, 30⟩)).1 =
      [[10, 20, 30, 10, 20, 30]] ∧
    (generate_bmp 2 1 "Solid Color" "BGR" (solidOpts ⟨10, 20, 30⟩)).1.drop 54
      = [30, 20, 10, 30, 20, 10, 0, 0] := by
  refine ⟨fun hbgr => ?_, fun hrgb => ?_, fun c rest => bgrSwap_pixel c rest,
    rfl, rfl⟩
  · rw [generate_bmp_valid w h pattern ord options hw hh (Or.inl hbgr) hp
      hsize]
    rw [show (54 : Nat) = (bmpHeader w h).length from
      (bmpHeader_length w h).symm]
    rw [List.drop_left]
    simp [hbgr]
  · rw [generate_bmp_valid w h pattern ord options hw hh (Or.inr hrgb) hp
      hsize]
    rw [show (54 : Nat) = (bmpHeader w h).length from
      (bmpHeader_length w h).symm]
    rw [List.drop_left]
    simp [hrgb]

/-- C5 witness: the swap claim at 2×1, Solid Color (10,20,30), order BGR. -/
theorem C5_channel_swap_witness :
    (pyUpper "BGR" = "BGR" →
      (generate_bmp 2 1 "Solid Color" "BGR" (solidOpts ⟨10, 20, 30⟩)).1.drop 54
        = ((generate_pixel_rows 2 1 "Solid Color"
            (solidOpts ⟨10, 20, 30⟩)).1.map (fun row =>
          bgrSwap row ++ List.replicate (rowPad 2) 0)).flatten) ∧
    (pyUpper "BGR" = "RGB" →
      (generate_bmp 2 1 "Solid Color" "BGR" (solidOpts ⟨10, 20, 30⟩)).1.drop 54
        = ((generate_pixel_rows 2 1 "Solid Color"
            (solidOpts ⟨10, 20, 30⟩)).1.map (fun row =>
          row ++ List.replicate (rowPad 2) 0)).flatten) ∧
    (∀ c rest, bgrSwap (pixelBytes c ++ rest) =
      [c.b.toNat, c.g.toNat, c.r.toNat] ++ bgrSwap rest) ∧
    (generate_pixel_rows 2 1 "Solid Color" (solidOpts ⟨10, 20, 30⟩)).1 =
      [[10, 20, 30, 10, 20, 30]] ∧
    (generate_bmp 2 1 "Solid Color" "BGR" (solidOpts ⟨10, 20, 30⟩)).1.drop 54
      = [30, 20, 10, 30, 20, 10, 0, 0] :=
  C5_channel_swap 2 1 "Solid Color" "BGR" (solidOpts ⟨10, 20, 30⟩)
    (by decide) (by decide) (by decide) (by decide) (by decide)

/-! ## Claim C7 -/

/-- C7: RGB Stripes colors columns `[0, w//3)` with color1,
`[w//3, 2*(w//3))` with color2 and the rest with color3 (defaults red,
green, blue); at width 9 columns 0–2 are red, 3–5 green, 6–8 blue, in
canonical RGB order before any channel swap. -/
theorem C7_stripes (w h : Nat) (options : Options) (_hw : 0 < w) (_hh : 0 < h)
    (h1 : optionOk options.color1) (h2 : optionOk options.color2)
    (h3 : optionOk options.color3) :
    (generate_pixel_rows w h "RGB Stripes" options =
      (List.replicate h (rowOf w (stripeColor w options)), false)) ∧
    (∀ x, x < w → pixelAt (rowOf w (stripeColor w options)) x =
      pixelBytes (if x < w / 3 then options.color1.getD ⟨255, 0, 0⟩
        else if x < 2 * (w / 3) then options.color2.getD ⟨0, 255, 0⟩
        else options.color3.getD ⟨0, 0, 255⟩)) ∧
    ((generate_pixel_rows 9 1 "RGB Stripes" noOptions).1 =
      [[255, 0, 0, 255, 0, 0, 255, 0, 0, 0, 255, 0, 0, 255, 0, 0, 255, 0,
        0, 0, 255, 0, 0, 255, 0, 0, 255]]) := by
  refine ⟨stripes_rows w h options h1 h2 h3, fun x hx => ?_, rfl⟩
  rw [pixelAt_rowOf _ hx]
  rfl

/-- C7 witness: the stripes claim at width 9, height 1, default colors. -/
theorem C7_stripes_witness :
    (generate_pixel_rows 9 1 "RGB Stripes" noOptions =
      (List.replicate 1 (rowOf 9 (stripeColor 9 noOptions)), false)) ∧
    (∀ x, x < 9 → pixelAt (rowOf 9 (stripeColor 9 noOptions)) x =
      pixelBytes (if x < 9 / 3 then noOptions.color1.getD ⟨255, 0, 0⟩
        else if x < 2 * (9 / 3) then noOptions.color2.getD ⟨0, 255, 0⟩
        else noOptions.color3.getD ⟨0, 0, 255⟩)) ∧
    ((generate_pixel_rows 9 1 "RGB Stripes" noOptions).1 =
      [[255, 0, 0, 255, 0, 0, 255, 0, 0, 0, 255, 0, 0, 255, 0, 0, 255, 0,
        0, 0, 255, 0, 0, 255, 0, 0, 255]]) :=
  C7_stripes 9 1 noOptions (by decide) (by decide) trivial trivial trivial

/-! ## Claim C8 -/

/-- C8: the Checkerboard's two precomputed alternating rows realize exactly
the per-pixel 16×16-tile parity rule: pixel (x, y) is color1 (default
white) when `(x/16 + y/16) % 2 = 0` and color2 (default black) when the
parity is 1. -/
theorem C8_checkerboard (w h : Nat) (options : Options)
    (h1 : optionOk options.color1) (h2 : optionOk options.color2) :
    (generate_pixel_rows w h "Checkerboard" options).2 = false ∧
    ∀ x y, x < w → y < h →
      ∃ row,
        (generate_pixel_rows w h "Checkerboard" options).1[y]? = some row ∧
        pixelAt row x = pixelBytes (if (x / 16 + y / 16) % 2 = 0
          then checkerColor1 options else checkerColor2 options) := by
  rw [checker_rows w h options h1 h2]
  refine ⟨rfl, fun x y hx hy => ?_⟩
  refine ⟨if y / 16 % 2 = 0
      then rowOf w (fun x => if x / 16 % 2 = 0
        then checkerColor1 options else checkerColor2 options)
      else rowOf w (fun x => if x / 16 % 2 = 0
        then checkerColor2 options else checkerColor1 options), ?_, ?_⟩
  · rw [List.getElem?_map, List.getElem?_range hy]
    rfl
  · by_cases hyp : y / 16 % 2 = 0
    · rw [if_pos hyp, pixelAt_rowOf _ hx]
      by_cases hxp : x / 16 % 2 = 0
      · rw [if_pos hxp, if_pos (by omega)]
      · rw [if_neg hxp, if_neg (by omega)]
    · rw [if_neg hyp, pixelAt_rowOf _ hx]
      by_cases hxp : x / 16 % 2 = 0
      · rw [if_pos hxp, if_neg (by omega)]
      · rw [if_neg hxp, if_pos (by omega)]

/-- C8 witness: the checkerboard claim at 17×17, default colors. -/
theorem C8_checkerboard_witness :
    (generate_pixel_rows 17 17 "Checkerboard" noOptions).2 = false ∧
    ∀ x y, x < 17 → y < 17 →
      ∃ row,
        (generate_pixel_rows 17 17 "Checkerboard" noOptions).1[y]? =
          some row ∧
        pixelAt row x = pixelBytes (if (x / 16 + y / 16) % 2 = 0
          then checkerColor1 noOptions else checkerColor2 noOptions) :=
  C8_checkerboard 17 17 noOptions trivial trivial

/-! ## Claim C9 -/

/-- C9: Grayscale Bars uses the bar index `min(x*8//w, 7)` — the same
computation Color Bars uses — sets all three channels of column `x` to
`255 - trunc(barIndex * 255/7)`, and this gray value is monotonically
non-increasing from left to right. -/
theorem C9_grayscale_bars (w h : Nat) (options : Options) (_hw : 0 < w)
    (_hh : 0 < h) :
    (generate_pixel_rows w h "Grayscale Bars" options =
      (List.replicate h (rowOf w (grayBarsColor w)), false)) ∧
    (∀ x, x < w → pixelAt (rowOf w (grayBarsColor w)) x =
      [grayValue w x, grayValue w x, grayValue w x]) ∧
    (∀ x, grayValue w x = 255 - grayLevel (min (x * 8 / w) 7)) ∧
    (∀ x, colorBarsColor w x =
      colorBarsPalette.getD (min (x * 8 / w) 7) ⟨0, 0, 0⟩) ∧
    (∀ x x', x ≤ x' → grayValue w x' ≤ grayValue w x) := by
  refine ⟨grayBars_rows w h options, fun x hx => ?_, fun x => rfl,
    fun x => rfl, fun x x' hxx => ?_⟩
  · rw [pixelAt_rowOf _ hx, grayBars_pixelBytes]
  · have hbar : barIndex w x ≤ barIndex w x' := by
      unfold barIndex
      exact min_le_min
        (Nat.div_le_div_right (Nat.mul_le_mul_right 8 hxx)) (le_refl 7)
    have hlvl : grayLevel (barIndex w x) ≤ grayLevel (barIndex w x') := by
      unfold grayLevel
      exact Nat.div_le_div_right (Nat.mul_le_mul_right 255 hbar)
    unfold grayValue
    omega

/-- C9 witness: the grayscale-bars claim at width 8, height 1. -/
theorem C9_grayscale_bars_witness :
    (generate_pixel_rows 8 1 "Grayscale Bars" noOptions =
      (List.replicate 1 (rowOf 8 (grayBarsColor 8)), false)) ∧
    (∀ x, x < 8 → pixelAt (rowOf 8 (grayBarsColor 8)) x =
      [grayValue 8 x, grayValue 8 x, grayValue 8 x]) ∧
    (∀ x, grayValue 8 x = 255 - grayLevel (min (x * 8 / 8) 7)) ∧
    (∀ x, colorBarsColor 8 x =
      colorBarsPalette.getD (min (x * 8 / 8) 7) ⟨0, 0, 0⟩) ∧
    (∀ x x', x ≤ x' → grayValue 8 x' ≤ grayValue 8 x) :=
  C9_grayscale_bars 8 1 noOptions (by decide) (by decide)

end BmpGen
